import Mathlib

/-!
Verification of the uniform-buffer, mesh, and imposter components of a
real-time 3D rendering library, shallowly embedded from the Rust sources
(`src/core/uniform_buffer.rs`, `src/renderer/geometry/mesh.rs`,
`src/object/imposters.rs`).
-/

set_option autoImplicit false

deriving instance DecidableEq for Except

namespace ThreeD

/-! ## Errors

The library's error enum. `BufferError` is the variant produced by
`uniform_buffer.rs`; `DeviceError` is modelled from the spec (§7), since the
error-enum source file is not part of the excerpt. Only the variants the
claims need are present.
-/

inductive Error where
  | BufferError (message : String)
  | DeviceError (message : String)
deriving DecidableEq, Repr

/-- The error message built by `UniformBuffer::offset_length` when the index is
out of range. The Rust code computes `self.offsets.len() - 1` in `usize`; for an
empty buffer this underflows (panic in debug builds, wrap in release), but no
claim depends on the message text, so truncated subtraction is used here. -/
def outOfRangeError (index numRegions : Nat) : Error :=
  let upper := numRegions - 1
  .BufferError s!"The uniform buffer index {index} is outside the range 0-{upper}"

/-- The error message built by `UniformBuffer::update` when the supplied data
does not match the declared region length. -/
def sizeMismatchError (index dataLen requiredLen : Nat) : Error :=
  .BufferError
    s!"The uniform buffer data for index {index} has length {dataLen} but it must be {requiredLen}."

/-! ## UniformBuffer (`src/core/uniform_buffer.rs`)

The buffer's CPU-visible state is its offset table and its mirrored data
vector (`offsets: Vec<usize>`, `data: Vec<f32>`). The element type is kept
abstract (`α`): the Rust code only copies `f32` values, never computes with
them. GPU upload (`send`) has no CPU-visible effect and is omitted from the
pure state; the construction-time device call is modelled separately below.
-/

structure UniformBuffer (α : Type) where
  offsets : List Nat
  data : List α
deriving DecidableEq, Repr

/-- The offset-table loop in `UniformBuffer::new`: for every size, push the
running total, then add the size to it. -/
def buildOffsets : List Nat → Nat → List Nat
  | [], _ => []
  | size :: rest, length => length :: buildOffsets rest (length + size)

/-- The final value of the running total `length` in `UniformBuffer::new`. -/
def totalLength : List Nat → Nat → Nat
  | [], length => length
  | size :: rest, length => totalLength rest (length + size)

/-- The successfully-constructed `UniformBuffer` value of `UniformBuffer::new`:
offset table from the loop, data vector `vec![0.0; length]` (`zero` stands for
the `0.0` fill element). -/
def UniformBuffer.new {α : Type} (zero : α) (sizes : List Nat) : UniformBuffer α :=
  { offsets := buildOffsets sizes 0
    data := List.replicate (totalLength sizes 0) zero }

/-- `UniformBuffer::offset_length`: fails when `index >= offsets.len()`;
otherwise the offset is `offsets[index]` and the length is the distance to the
next offset (or to the end of the data vector for the last region). -/
def UniformBuffer.offset_length {α : Type} (b : UniformBuffer α) (index : Nat) :
    Except Error (Nat × Nat) :=
  if index ≥ b.offsets.length then
    .error (outOfRangeError index b.offsets.length)
  else
    let offset := b.offsets.getD index 0
    let stop :=
      if index + 1 = b.offsets.length then b.data.length else b.offsets.getD (index + 1) 0
    .ok (offset, stop - offset)

/-- `UniformBuffer::update(&mut self, index, data)`. The returned buffer is the
post-call state of `self`: unchanged on either error (the Rust code returns
before touching `self.data`), and with `data` spliced over the region on
success. `Vec::splice` over `offset..offset+length` with exactly `length`
replacement elements is `take offset ++ data ++ drop (offset+length)`. -/
def UniformBuffer.update {α : Type} (b : UniformBuffer α) (index : Nat) (d : List α) :
    UniformBuffer α × Except Error Unit :=
  match b.offset_length index with
  | .error e => (b, .error e)
  | .ok (offset, length) =>
    if d.length ≠ length then
      (b, .error (sizeMismatchError index d.length length))
    else
      ({ b with data := b.data.take offset ++ d ++ b.data.drop (offset + length) }, .ok ())

/-- `UniformBuffer::get`: the slice `&self.data[offset..offset+length]`. The
slice is modelled with `drop`/`take`; the in-bounds fact `offset + length ≤
data.len()` (so the Rust indexing cannot panic) is proved separately. -/
def UniformBuffer.get {α : Type} (b : UniformBuffer α) (index : Nat) :
    Except Error (List α) :=
  match b.offset_length index with
  | .error e => .error e
  | .ok (offset, length) => .ok ((b.data.drop offset).take length)

/-! ### Construction with the device call (for the propagation-policy claim)

`UniformBuffer::new` begins with `context.create_buffer().unwrap()`. The
`context` module is not part of the excerpt; per the spec (§4.1) its creation
calls are fallible. The outcome type below distinguishes a Rust panic (what
`unwrap` does on failure) from a returned error. -/

inductive RustResult (ε α : Type) where
  | ok : α → RustResult ε α
  | err : ε → RustResult ε α
  | panicked : RustResult ε α
deriving DecidableEq

/-- Modelled from the spec: `Context::create_buffer` (the `context` module is
missing from the excerpt) is a fallible device call; `none` represents its
failure. `UniformBuffer::new` calls `.unwrap()` on its result, so failure
panics instead of returning; on success the function always returns `Ok`. -/
def UniformBuffer.new_checked {α : Type} (createBufferResult : Option Nat) (zero : α)
    (sizes : List Nat) : RustResult Error (UniformBuffer α) :=
  match createBufferResult with
  | none => .panicked
  | some _ => .ok (UniformBuffer.new zero sizes)

/-! ### Offset-table lemmas -/

theorem buildOffsets_length (sizes : List Nat) (acc : Nat) :
    (buildOffsets sizes acc).length = sizes.length := by
  induction sizes generalizing acc with
  | nil => rfl
  | cons s rest ih => simp [buildOffsets, ih]

theorem buildOffsets_getD (sizes : List Nat) (acc : Nat) :
    ∀ i, i < sizes.length → (buildOffsets sizes acc).getD i 0 = acc + (sizes.take i).sum := by
  induction sizes generalizing acc with
  | nil => intro i hi; simp at hi
  | cons s rest ih =>
    intro i hi
    cases i with
    | zero => simp [buildOffsets]
    | succ j =>
      have hj : j < rest.length := Nat.lt_of_succ_lt_succ hi
      simp only [buildOffsets, List.getD_cons_succ, List.take_succ_cons, List.sum_cons]
      rw [ih (acc + s) j hj]
      omega

theorem totalLength_eq (sizes : List Nat) (acc : Nat) :
    totalLength sizes acc = acc + sizes.sum := by
  induction sizes generalizing acc with
  | nil => simp [totalLength]
  | cons s rest ih => simp [totalLength, ih]; omega

/-- Sum of the first `i+1` sizes, in `getD` form. -/
theorem sum_take_succ_getD (sizes : List Nat) (i : Nat) (hi : i < sizes.length) :
    (sizes.take (i + 1)).sum = (sizes.take i).sum + sizes.getD i 0 := by
  rw [List.sum_take_succ sizes i hi, List.getD_eq_getElem sizes 0 hi]

/-- A buffer is well formed for `sizes` when its offset table is the one built
by `new` and its data vector has the total length. `new` establishes this and
`update` preserves it. -/
def UniformBuffer.WF {α : Type} (b : UniformBuffer α) (sizes : List Nat) : Prop :=
  b.offsets = buildOffsets sizes 0 ∧ b.data.length = sizes.sum

theorem new_wf {α : Type} (zero : α) (sizes : List Nat) :
    (UniformBuffer.new zero sizes).WF sizes := by
  constructor
  · rfl
  · simp [UniformBuffer.new, totalLength_eq]

/-- On a well-formed buffer, `offset_length` at a valid index returns the
prefix sum of the earlier sizes and the declared size of region `index`. -/
theorem offset_length_wf {α : Type} (b : UniformBuffer α) (sizes : List Nat)
    (hwf : b.WF sizes) (i : Nat) (hi : i < sizes.length) :
    b.offset_length i = .ok ((sizes.take i).sum, sizes.getD i 0) := by
  obtain ⟨hoff, hlen⟩ := hwf
  have hlenoff : b.offsets.length = sizes.length := by rw [hoff, buildOffsets_length]
  have hnot : ¬ i ≥ b.offsets.length := by omega
  unfold UniformBuffer.offset_length
  rw [if_neg hnot]
  have hoffD : b.offsets.getD i 0 = (sizes.take i).sum := by
    rw [hoff, buildOffsets_getD sizes 0 i hi]; omega
  by_cases hlast : i + 1 = b.offsets.length
  · have htake : sizes.take (i + 1) = sizes := by
      apply List.take_of_length_le; omega
    have hsum : (sizes.take i).sum + sizes.getD i 0 = sizes.sum := by
      rw [← sum_take_succ_getD sizes i hi, htake]
    simp only [hlast, eq_self_iff_true, if_true, hoffD, hlen]
    have : sizes.sum - (sizes.take i).sum = sizes.getD i 0 := by omega
    rw [this]
  · have hnext : i + 1 < sizes.length := by omega
    have hoffD2 : b.offsets.getD (i + 1) 0 = (sizes.take (i + 1)).sum := by
      rw [hoff, buildOffsets_getD sizes 0 (i + 1) hnext]; omega
    simp only [if_neg hlast, hoffD, hoffD2]
    rw [sum_take_succ_getD sizes i hi]
    have : (sizes.take i).sum + sizes.getD i 0 - (sizes.take i).sum = sizes.getD i 0 := by omega
    rw [this]

/-- On a well-formed buffer, a valid region lies inside the data vector. -/
theorem region_in_bounds (sizes : List Nat) (i : Nat) (hi : i < sizes.length) :
    (sizes.take i).sum + sizes.getD i 0 ≤ sizes.sum := by
  rw [← sum_take_succ_getD sizes i hi]
  calc (sizes.take (i + 1)).sum
      ≤ (sizes.take (i + 1)).sum + (sizes.drop (i + 1)).sum := Nat.le_add_right _ _
    _ = sizes.sum := List.sum_take_add_sum_drop sizes (i + 1)

/-- A successful `update` on a well-formed buffer: it reports success, keeps the
buffer well formed, and `get` at the same index reads back exactly the data. -/
theorem update_valid {α : Type} (b : UniformBuffer α) (sizes : List Nat)
    (hwf : b.WF sizes) (i : Nat) (hi : i < sizes.length) (d : List α)
    (hd : d.length = sizes.getD i 0) :
    (b.update i d).2 = .ok () ∧ ((b.update i d).1).WF sizes ∧
      (b.update i d).1.get i = .ok d := by
  have hol := offset_length_wf b sizes hwf i hi
  have hdlen : b.data.length = sizes.sum := hwf.2
  have hbound : (sizes.take i).sum + sizes.getD i 0 ≤ sizes.sum := region_in_bounds sizes i hi
  have hne : ¬ d.length ≠ sizes.getD i 0 := fun h => h hd
  have hA : (b.data.take ((sizes.take i).sum)).length = (sizes.take i).sum := by
    rw [List.length_take]; omega
  have hupdate : b.update i d =
      ({ b with data := b.data.take ((sizes.take i).sum) ++ d ++
          b.data.drop ((sizes.take i).sum + sizes.getD i 0) }, .ok ()) := by
    simp only [UniformBuffer.update, hol]
    rw [if_neg hne]
  have hwf2 : ((b.update i d).1).WF sizes := by
    rw [hupdate]
    refine ⟨hwf.1, ?_⟩
    simp only [List.length_append, hA, List.length_drop, hd, hdlen]
    omega
  refine ⟨by rw [hupdate], hwf2, ?_⟩
  have hol2 := offset_length_wf (b.update i d).1 sizes hwf2 i hi
  simp only [UniformBuffer.get, hol2]
  rw [hupdate]
  simp only [List.append_assoc]
  rw [List.drop_left' hA, List.take_left' hd]

/-- `offset_length` on any buffer whose offset table has `n ≤ index` entries
fails with the out-of-range error. -/
theorem offset_length_out_of_range {α : Type} (b : UniformBuffer α) (index : Nat)
    (h : b.offsets.length ≤ index) :
    b.offset_length index = .error (outOfRangeError index b.offsets.length) := by
  unfold UniformBuffer.offset_length
  rw [if_pos (by omega)]

/-! ## Claim theorems about the uniform buffer -/

/-- C1: for every region-size list and every index `i` below the number of
regions, `UniformBuffer::new` followed by `update(i, data)` with `data.len()`
equal to region `i`'s declared size succeeds, and a subsequent `get(i)` returns
exactly `data`. -/
theorem uniformBuffer_update_get_roundtrip {α : Type} (zero : α) (sizes : List Nat)
    (i : Nat) (hi : i < sizes.length) (d : List α) (hd : d.length = sizes.getD i 0) :
    ((UniformBuffer.new zero sizes).update i d).2 = .ok () ∧
      ((UniformBuffer.new zero sizes).update i d).1.get i = .ok d := by
  have h := update_valid (UniformBuffer.new zero sizes) sizes (new_wf zero sizes) i hi d hd
  exact ⟨h.1, h.2.2⟩

theorem uniformBuffer_update_get_roundtrip_witness :
    ((UniformBuffer.new (0 : Int) [2, 3]).update 1 [7, 8, 9]).2 = .ok () ∧
      ((UniformBuffer.new (0 : Int) [2, 3]).update 1 [7, 8, 9]).1.get 1 = .ok [7, 8, 9] :=
  uniformBuffer_update_get_roundtrip 0 [2, 3] 1 (by decide) [7, 8, 9] (by decide)

/-- C2: for every region-size list (the empty list included) and every index at
or beyond the number of regions, both `update` and `get` fail with the
out-of-range buffer error, and `update` leaves the buffer unchanged. -/
theorem uniformBuffer_index_out_of_range {α : Type} (zero : α) (sizes : List Nat)
    (index : Nat) (h : sizes.length ≤ index) (d : List α) :
    (UniformBuffer.new zero sizes).update index d
        = (UniformBuffer.new zero sizes, .error (outOfRangeError index sizes.length)) ∧
      (UniformBuffer.new zero sizes).get index
        = .error (outOfRangeError index sizes.length) := by
  have hlen : (UniformBuffer.new zero sizes).offsets.length = sizes.length := by
    simp [UniformBuffer.new, buildOffsets_length]
  have hol := offset_length_out_of_range (UniformBuffer.new zero sizes) index (by omega)
  rw [hlen] at hol
  constructor
  · simp only [UniformBuffer.update, hol]
  · simp only [UniformBuffer.get, hol]

theorem uniformBuffer_index_out_of_range_witness :
    (UniformBuffer.new (0 : Int) []).update 0 [1]
        = (UniformBuffer.new (0 : Int) [], .error (outOfRangeError 0 0)) ∧
      (UniformBuffer.new (0 : Int) []).get 0 = .error (outOfRangeError 0 0) :=
  uniformBuffer_index_out_of_range 0 [] 0 (by decide) [1]

/-- C3: on any buffer, `update` at a valid index with data whose length differs
from the region's declared length fails with the size-mismatch buffer error and
leaves the mirrored contents unchanged: every subsequent `get` returns what it
returned before the failed update. -/
theorem uniformBuffer_update_size_mismatch {α : Type} (b : UniformBuffer α)
    (i o l : Nat) (hol : b.offset_length i = .ok (o, l)) (d : List α)
    (hd : d.length ≠ l) :
    b.update i d = (b, .error (sizeMismatchError i d.length l)) ∧
      ∀ j, (b.update i d).1.get j = b.get j := by
  have h1 : b.update i d = (b, .error (sizeMismatchError i d.length l)) := by
    simp only [UniformBuffer.update, hol]
    rw [if_pos hd]
  exact ⟨h1, fun j => by rw [h1]⟩

theorem uniformBuffer_update_size_mismatch_witness :
    (UniformBuffer.new (0 : Int) [2, 3]).update 0 [1, 2, 3]
        = (UniformBuffer.new (0 : Int) [2, 3], .error (sizeMismatchError 0 3 2)) ∧
      ∀ j, ((UniformBuffer.new (0 : Int) [2, 3]).update 0 [1, 2, 3]).1.get j
        = (UniformBuffer.new (0 : Int) [2, 3]).get j :=
  uniformBuffer_update_size_mismatch (UniformBuffer.new (0 : Int) [2, 3]) 0 0 2
    (by decide) [1, 2, 3] (by decide)

/-- C9: for every region-size list and valid index, `offset_length` on a fresh
buffer returns an offset and length with `offset + length` no larger than the
mirrored data vector's length, so the slice taken by `get` is in bounds. -/
theorem uniformBuffer_get_in_bounds {α : Type} (zero : α) (sizes : List Nat)
    (i : Nat) (hi : i < sizes.length) :
    ∃ o l, (UniformBuffer.new zero sizes).offset_length i = .ok (o, l) ∧
      o + l ≤ (UniformBuffer.new zero sizes).data.length := by
  refine ⟨(sizes.take i).sum, sizes.getD i 0,
    offset_length_wf _ sizes (new_wf zero sizes) i hi, ?_⟩
  have := region_in_bounds sizes i hi
  have hlen := (new_wf zero sizes).2
  omega

theorem uniformBuffer_get_in_bounds_witness :
    ∃ o l, (UniformBuffer.new (0 : Int) [2, 3]).offset_length 1 = .ok (o, l) ∧
      o + l ≤ (UniformBuffer.new (0 : Int) [2, 3]).data.length :=
  uniformBuffer_get_in_bounds 0 [2, 3] 1 (by decide)

/-- C7: if the device buffer creation at the start of `UniformBuffer::new`
fails, the call panics (`Option::unwrap` on a failed creation) instead of
returning the failure as a `DeviceError` value. -/
theorem uniformBuffer_new_panics_on_device_failure :
    UniformBuffer.new_checked none (0 : Int) [2, 3] = .panicked ∧
      ∀ e, UniformBuffer.new_checked none (0 : Int) [2, 3] ≠ .err e := by
  refine ⟨rfl, fun e h => ?_⟩
  simp [UniformBuffer.new_checked] at h

theorem uniformBuffer_new_panics_on_device_failure_witness :
    UniformBuffer.new_checked none (0 : Int) [2, 3]
      ≠ .err (Error.DeviceError "buffer creation failed") :=
  uniformBuffer_new_panics_on_device_failure.2 _

/-! ## Substring search

`str::find(&str)` from the Rust standard library: index of the first
occurrence of `needle` in `haystack`, if any. `mesh.rs` only consumes
`.is_some()`, wrapped as `strContains` below. -/

def findSub (haystack needle : List Char) : Option Nat :=
  if needle.isPrefixOf haystack then some 0
  else
    match haystack with
    | [] => none
    | _ :: rest => Option.map (fun n => n + 1) (findSub rest needle)

/-- `haystack.find(needle).is_some()`. -/
def strContains (haystack needle : String) : Bool :=
  (findSub haystack.data needle.data).isSome

/-! ## Mesh (`src/renderer/geometry/mesh.rs`) -/

/-- The core error enum as used by `mesh.rs` (`CoreError::MissingBitangent`,
`CoreError::MissingMeshBuffer`); `OtherError` stands for the remaining
variants, which the mesh code only propagates. -/
inductive CoreError where
  | MissingBitangent
  | MissingMeshBuffer (name : String)
  | OtherError (message : String)
deriving DecidableEq, Repr

/-- Modelled from the spec: contents of `src/core/shared.frag` (not part of the
excerpt) — shared shader helper code, independent of the `USE_*` flags. -/
def sharedFragSource : String := "// shared.frag helper functions\n"

/-- Modelled from the spec: contents of
`src/renderer/geometry/shaders/mesh.vert` (not part of the excerpt) — the base
vertex-shader template, which consumes the `USE_*` feature flags only through
`#ifdef` blocks and never defines them itself. -/
def meshVertSource : String :=
  "uniform mat4 modelMatrix;\nin vec3 position;\n#ifdef USE_NORMALS\nin vec3 normal;\n#endif\nvoid main();\n"

/-- `Mesh::vertex_shader_source`: scans the fragment source for the expected
input declarations, errors with `MissingBitangent` when a tangent input lacks a
bitangent input, and otherwise prepends the matching `#define` flags to the
shared-code-plus-template base. -/
def Mesh.vertex_shader_source (fragment_shader_source : String) :
    Except CoreError String :=
  let use_positions := strContains fragment_shader_source "in vec3 pos;"
  let use_normals := strContains fragment_shader_source "in vec3 nor;"
  let use_tangents := strContains fragment_shader_source "in vec3 tang;"
  let use_uvs := strContains fragment_shader_source "in vec2 uvs;"
  let use_colors := strContains fragment_shader_source "in vec4 col;"
  if use_tangents && !(strContains fragment_shader_source "in vec3 bitang;") then
    .error CoreError.MissingBitangent
  else
    .ok ((if use_positions then "#define USE_POSITIONS\n" else "") ++
      (if use_normals then "#define USE_NORMALS\n" else "") ++
      (if use_tangents then "#define USE_TANGENTS\n" else "") ++
      (if use_uvs then "#define USE_UVS\n" else "") ++
      (if use_colors then "#define USE_COLORS\n" else "") ++
      sharedFragSource ++ meshVertSource)

/-! ## The draw protocol of `Mesh::render_with_material`

`Program`, `Material`, `Camera` and the GPU context live outside the excerpt;
following the spec (§4.4–4.5) they are modelled as oracles: the program knows
which attributes it requires and each binding call has an outcome, the
material knows its fragment source and the outcome of pushing its uniforms.
The mesh itself is reduced to which optional buffers it owns, which is all
`render_with_material` inspects. Device calls that reach the driver are
traced; the claims are about the draw calls in the trace. -/

structure MeshModel where
  hasNormalBuffer : Bool
  hasUvBuffer : Bool
  hasTangentBuffer : Bool
  hasColorBuffer : Bool
  hasIndexBuffer : Bool
  positionCount : Nat
deriving DecidableEq, Repr

/-- Modelled from the spec: the `Program` interface as used by
`Mesh::render_with_material` — `requires_attribute` queried by name, and the
outcome of each uniform/attribute binding call (which may fail, e.g. with a
missing-binding error). -/
structure ProgramModel where
  requiresAttribute : String → Bool
  useUniformMat4 : String → Except CoreError Unit
  useUniformMat3 : String → Except CoreError Unit
  useAttributeVec2 : String → Except CoreError Unit
  useAttributeVec3 : String → Except CoreError Unit
  useAttributeVec4 : String → Except CoreError Unit

/-- Modelled from the spec: the `Material` trait — fragment source as a
function of whether vertex colors are present (the lights argument is
abstracted away), and the outcome of `use_uniforms`. -/
structure MaterialModel where
  fragment_shader_source : Bool → String
  use_uniforms : Except CoreError Unit

inductive DeviceCall where
  | program (vertexSource fragmentSource : String)
  | drawElements
  | drawArrays (count : Nat)
deriving DecidableEq, Repr

def DeviceCall.isDraw : DeviceCall → Bool
  | .program _ _ => false
  | .drawElements => true
  | .drawArrays _ => true

/-- The `"position"` block of `Mesh::render_with_material`; the position buffer
always exists, so only the binding call itself can fail. -/
def positionStep (p : ProgramModel) : Except CoreError Unit :=
  if p.requiresAttribute "position" then p.useAttributeVec3 "position" else .ok ()

/-- The `"uv_coordinates"` block: texture transform, then the uv buffer —
`MissingMeshBuffer("uv coordinates")` when the mesh has none. -/
def uvStep (mesh : MeshModel) (p : ProgramModel) : Except CoreError Unit :=
  if p.requiresAttribute "uv_coordinates" then
    match p.useUniformMat3 "textureTransform" with
    | .error e => .error e
    | .ok _ =>
      if mesh.hasUvBuffer then p.useAttributeVec2 "uv_coordinates"
      else .error (CoreError.MissingMeshBuffer "uv coordinates")
  else .ok ()

/-- The `"normal"` block: the normal buffer (`MissingMeshBuffer("normal")` when
absent), the normal matrix, and the nested `"tangent"` block. -/
def normalStep (mesh : MeshModel) (p : ProgramModel) : Except CoreError Unit :=
  if p.requiresAttribute "normal" then
    if mesh.hasNormalBuffer then
      match p.useAttributeVec3 "normal" with
      | .error e => .error e
      | .ok _ =>
        match p.useUniformMat4 "normalMatrix" with
        | .error e => .error e
        | .ok _ =>
          if p.requiresAttribute "tangent" then
            if mesh.hasTangentBuffer then p.useAttributeVec4 "tangent"
            else .error (CoreError.MissingMeshBuffer "tangent")
          else .ok ()
    else .error (CoreError.MissingMeshBuffer "normal")
  else .ok ()

/-- The `"color"` block. -/
def colorStep (mesh : MeshModel) (p : ProgramModel) : Except CoreError Unit :=
  if p.requiresAttribute "color" then
    if mesh.hasColorBuffer then p.useAttributeVec4 "color"
    else .error (CoreError.MissingMeshBuffer "color")
  else .ok ()

/-- `Mesh::render_with_material`, step by step in source order: fragment source
from the material, vertex source (may fail before any device call), program
resolution (`context.program`, the first device call), material uniforms, the
camera block and model matrix, each attribute the program requires — erroring
with `MissingMeshBuffer` when the mesh never supplied the buffer — and finally
exactly one draw call (indexed if an index buffer exists, else
`draw_arrays` over `position_count / 3` triangles). Errors propagate
immediately; the accompanying list is the device-call trace. -/
def renderWithMaterial (mesh : MeshModel) (material : MaterialModel)
    (p : ProgramModel) : Except CoreError Unit × List DeviceCall :=
  let fs := material.fragment_shader_source mesh.hasColorBuffer
  match Mesh.vertex_shader_source fs with
  | .error e => (.error e, [])
  | .ok vs =>
    let trace := [DeviceCall.program vs fs]
    match material.use_uniforms with
    | .error e => (.error e, trace)
    | .ok _ =>
    match p.useUniformMat4 "modelMatrix" with
    | .error e => (.error e, trace)
    | .ok _ =>
    match positionStep p with
    | .error e => (.error e, trace)
    | .ok _ =>
    match uvStep mesh p with
    | .error e => (.error e, trace)
    | .ok _ =>
    match normalStep mesh p with
    | .error e => (.error e, trace)
    | .ok _ =>
    match colorStep mesh p with
    | .error e => (.error e, trace)
    | .ok _ =>
      if mesh.hasIndexBuffer then (.ok (), trace ++ [DeviceCall.drawElements])
      else (.ok (), trace ++ [DeviceCall.drawArrays (mesh.positionCount / 3)])

/-! ## Claim theorems about the mesh shader-source synthesis -/

/-- C5: for every fragment source containing `"in vec3 tang;"` but not
`"in vec3 bitang;"`, `Mesh::vertex_shader_source` returns the
`MissingBitangent` error, and a draw with such a material fails while building
the shader source: the device-call trace is empty, so no device call (program
compile attempt included) is made. -/
theorem mesh_missing_bitangent (fs : String)
    (htang : strContains fs "in vec3 tang;" = true)
    (hbitang : strContains fs "in vec3 bitang;" = false) :
    Mesh.vertex_shader_source fs = .error CoreError.MissingBitangent ∧
      ∀ (mesh : MeshModel) (mat : MaterialModel) (p : ProgramModel),
        mat.fragment_shader_source mesh.hasColorBuffer = fs →
        renderWithMaterial mesh mat p = (.error CoreError.MissingBitangent, []) := by
  have hvss : Mesh.vertex_shader_source fs = .error CoreError.MissingBitangent := by
    simp [Mesh.vertex_shader_source, htang, hbitang]
  refine ⟨hvss, fun mesh mat p hfs => ?_⟩
  simp only [renderWithMaterial, hfs, hvss]

theorem mesh_missing_bitangent_witness :
    Mesh.vertex_shader_source "in vec3 tang;" = .error CoreError.MissingBitangent ∧
      ∀ (mesh : MeshModel) (mat : MaterialModel) (p : ProgramModel),
        mat.fragment_shader_source mesh.hasColorBuffer = "in vec3 tang;" →
        renderWithMaterial mesh mat p = (.error CoreError.MissingBitangent, []) :=
  mesh_missing_bitangent "in vec3 tang;" (by decide) (by decide)

set_option maxRecDepth 4000 in
/-- C6: whenever `Mesh::vertex_shader_source` produces a vertex source, that
source contains `#define USE_NORMALS` exactly when the fragment source contains
`"in vec3 nor;"`, and likewise for `USE_UVS` / `"in vec2 uvs;"`,
`USE_TANGENTS` / `"in vec3 tang;"` and `USE_COLORS` / `"in vec4 col;"`. -/
theorem mesh_vertex_shader_feature_flags (fs vsOut : String)
    (h : Mesh.vertex_shader_source fs = .ok vsOut) :
    strContains vsOut "#define USE_NORMALS" = strContains fs "in vec3 nor;" ∧
      strContains vsOut "#define USE_UVS" = strContains fs "in vec2 uvs;" ∧
      strContains vsOut "#define USE_TANGENTS" = strContains fs "in vec3 tang;" ∧
      strContains vsOut "#define USE_COLORS" = strContains fs "in vec4 col;" := by
  unfold Mesh.vertex_shader_source at h
  cases hP : strContains fs "in vec3 pos;" <;>
    cases hN : strContains fs "in vec3 nor;" <;>
    cases hT : strContains fs "in vec3 tang;" <;>
    cases hU : strContains fs "in vec2 uvs;" <;>
    cases hC : strContains fs "in vec4 col;" <;>
    cases hB : strContains fs "in vec3 bitang;" <;>
    simp only [hP, hN, hT, hU, hC, hB] at h ⊢ <;>
    simp at h <;>
    subst h <;>
    decide

theorem mesh_vertex_shader_feature_flags_witness :
    ∃ out, Mesh.vertex_shader_source "in vec3 nor;" = .ok out ∧
      strContains out "#define USE_NORMALS" = true ∧
      strContains out "#define USE_UVS" = false := by
  have hisok : (Mesh.vertex_shader_source "in vec3 nor;").isOk = true := by decide
  cases hE : Mesh.vertex_shader_source "in vec3 nor;" with
  | error e => rw [hE] at hisok; simp [Except.isOk, Except.toBool] at hisok
  | ok out =>
    have h := mesh_vertex_shader_feature_flags "in vec3 nor;" out hE
    exact ⟨out, rfl, by rw [h.1]; decide, by rw [h.2.1]; decide⟩

/-! ## Claim theorems about the draw protocol (missing normal buffer) -/

def counterMesh : MeshModel :=
  { hasNormalBuffer := false, hasUvBuffer := false, hasTangentBuffer := false
    hasColorBuffer := false, hasIndexBuffer := false, positionCount := 3 }

def counterMaterial : MaterialModel :=
  { fragment_shader_source := fun _ => "", use_uniforms := .ok () }

def counterProgram : ProgramModel :=
  { requiresAttribute := fun name => name == "normal" || name == "uv_coordinates"
    useUniformMat4 := fun _ => .ok ()
    useUniformMat3 := fun _ => .ok ()
    useAttributeVec2 := fun _ => .ok ()
    useAttributeVec3 := fun _ => .ok ()
    useAttributeVec4 := fun _ => .ok () }

/-- C4 counterexample: a mesh without a normal buffer and a program requiring
`"normal"` need not fail with `MissingMeshBuffer("normal")` — when the program
also requires `"uv_coordinates"` and the mesh lacks a uv buffer, the uv block
runs first and the draw fails with `MissingMeshBuffer("uv coordinates")`. -/
theorem mesh_render_missing_normal_counterexample :
    counterProgram.requiresAttribute "normal" = true ∧
      counterMesh.hasNormalBuffer = false ∧
      (renderWithMaterial counterMesh counterMaterial counterProgram).1
          = .error (CoreError.MissingMeshBuffer "uv coordinates") ∧
      (renderWithMaterial counterMesh counterMaterial counterProgram).1
          ≠ .error (CoreError.MissingMeshBuffer "normal") := by
  refine ⟨rfl, rfl, by decide, by decide⟩

/-- C4 (amended): for a mesh without a normal buffer and a program requiring
`"normal"`, provided every step before the normal-buffer check succeeds (the
shader source builds, the material's uniforms and the model matrix bind, and
the position/uv attributes, where required, can be bound — in particular any
required uv buffer is present), `render_with_material` fails with
`MissingMeshBuffer("normal")` and no device draw call is issued. -/
theorem mesh_render_missing_normal_buffer (mesh : MeshModel) (mat : MaterialModel)
    (p : ProgramModel)
    (hvs : (Mesh.vertex_shader_source
      (mat.fragment_shader_source mesh.hasColorBuffer)).isOk = true)
    (hmat : mat.use_uniforms = .ok ())
    (hmm : p.useUniformMat4 "modelMatrix" = .ok ())
    (hpos : p.requiresAttribute "position" = true →
      p.useAttributeVec3 "position" = .ok ())
    (huv : p.requiresAttribute "uv_coordinates" = true →
      p.useUniformMat3 "textureTransform" = .ok () ∧ mesh.hasUvBuffer = true ∧
        p.useAttributeVec2 "uv_coordinates" = .ok ())
    (hreq : p.requiresAttribute "normal" = true)
    (hnor : mesh.hasNormalBuffer = false) :
    (renderWithMaterial mesh mat p).1 = .error (CoreError.MissingMeshBuffer "normal") ∧
      ∀ c ∈ (renderWithMaterial mesh mat p).2, c.isDraw = false := by
  cases hE : Mesh.vertex_shader_source (mat.fragment_shader_source mesh.hasColorBuffer) with
  | error e => rw [hE] at hvs; simp [Except.isOk, Except.toBool] at hvs
  | ok vs =>
    have hpos' : positionStep p = .ok () := by
      unfold positionStep
      cases hPos : p.requiresAttribute "position"
      · simp
      · simpa using hpos hPos
    have huv' : uvStep mesh p = .ok () := by
      unfold uvStep
      cases hUv : p.requiresAttribute "uv_coordinates"
      · simp
      · obtain ⟨h1, h2, h3⟩ := huv hUv
        simp [h1, h2, h3]
    have hnorm' : normalStep mesh p = .error (CoreError.MissingMeshBuffer "normal") := by
      unfold normalStep
      simp [hreq, hnor]
    have hres : renderWithMaterial mesh mat p
        = (.error (CoreError.MissingMeshBuffer "normal"),
            [DeviceCall.program vs (mat.fragment_shader_source mesh.hasColorBuffer)]) := by
      simp only [renderWithMaterial, hE, hmat, hmm, hpos', huv', hnorm']
    rw [hres]
    exact ⟨rfl, by intro c hc; simp at hc; subst hc; rfl⟩

theorem mesh_render_missing_normal_buffer_witness :
    (renderWithMaterial
        { hasNormalBuffer := false, hasUvBuffer := true, hasTangentBuffer := false
          hasColorBuffer := false, hasIndexBuffer := true, positionCount := 3 }
        counterMaterial
        { requiresAttribute := fun name => name == "normal"
          useUniformMat4 := fun _ => .ok ()
          useUniformMat3 := fun _ => .ok ()
          useAttributeVec2 := fun _ => .ok ()
          useAttributeVec3 := fun _ => .ok ()
          useAttributeVec4 := fun _ => .ok () }).1
        = .error (CoreError.MissingMeshBuffer "normal") ∧
      ∀ c ∈ (renderWithMaterial
        { hasNormalBuffer := false, hasUvBuffer := true, hasTangentBuffer := false
          hasColorBuffer := false, hasIndexBuffer := true, positionCount := 3 }
        counterMaterial
        { requiresAttribute := fun name => name == "normal"
          useUniformMat4 := fun _ => .ok ()
          useUniformMat3 := fun _ => .ok ()
          useAttributeVec2 := fun _ => .ok ()
          useAttributeVec3 := fun _ => .ok ()
          useAttributeVec4 := fun _ => .ok () }).2, c.isDraw = false :=
  mesh_render_missing_normal_buffer _ _ _ (by decide) rfl rfl
    (fun _ => rfl) (fun _ => ⟨rfl, rfl, rfl⟩) (by decide) rfl

/-! ## Mesh transformation and bounding box

`Mat4`, `AxisAlignedBoundingBox` and `CpuMesh::compute_aabb` live in the math
and definition modules, which are not part of the excerpt. Modelled from the
spec: matrices (`M`) and boxes (`A`) are abstract types and
`AxisAlignedBoundingBox::transform` is an abstract function `A → M → A`; the
mesh state keeps exactly the three fields `Mesh` keeps (`transformation`,
`aabb`, `aabb_local`). -/

structure MeshState (M A : Type) where
  transformation : M
  aabb : A
  aabb_local : A
deriving DecidableEq, Repr

/-- The transform-relevant part of `Mesh::new`: `transformation` starts as
`Mat4::identity()` and both `aabb` and `aabb_local` start as the value of
`cpu_mesh.compute_aabb()`. -/
def MeshState.new {M A : Type} (identity : M) (computedAabb : A) : MeshState M A :=
  { transformation := identity, aabb := computedAabb, aabb_local := computedAabb }

/-- `GeometryMut::set_transformation` for `Mesh`: store the new transformation
and recompute `aabb` by transforming a clone of `aabb_local`; `aabb_local`
itself is left untouched. -/
def MeshState.set_transformation {M A : Type} (transformAabb : A → M → A)
    (m : MeshState M A) (transformation : M) : MeshState M A :=
  { transformation := transformation
    aabb := transformAabb m.aabb_local transformation
    aabb_local := m.aabb_local }

theorem foldl_set_transformation {M A : Type} (transformAabb : A → M → A) :
    ∀ (ts : List M) (s : MeshState M A),
      (ts.foldl (MeshState.set_transformation transformAabb) s).aabb_local = s.aabb_local ∧
      ∀ t, ts.getLast? = some t →
        (ts.foldl (MeshState.set_transformation transformAabb) s).transformation = t ∧
        (ts.foldl (MeshState.set_transformation transformAabb) s).aabb
          = transformAabb s.aabb_local t := by
  intro ts
  induction ts with
  | nil => exact fun s => ⟨rfl, fun t ht => by simp at ht⟩
  | cons x rest ih =>
    intro s
    rw [List.foldl_cons]
    refine ⟨(ih _).1, fun t ht => ?_⟩
    cases rest with
    | nil =>
      simp only [List.getLast?_singleton, Option.some.injEq] at ht
      subst ht
      exact ⟨rfl, rfl⟩
    | cons y ys =>
      rw [List.getLast?_cons_cons] at ht
      have h := (ih (MeshState.set_transformation transformAabb s x)).2 t ht
      exact ⟨h.1, h.2⟩

/-- C10: after `Mesh::new` the transformation is the identity and `aabb()` is
the CPU mesh's computed box; after any sequence of `set_transformation` calls,
`aabb()` is the original local box transformed by the current transformation
(the last one set), and the stored local box is never modified. -/
theorem mesh_aabb_transform_invariant {M A : Type} (transformAabb : A → M → A)
    (identity : M) (computedAabb : A) (ts : List M) :
    (MeshState.new identity computedAabb).transformation = identity ∧
      (MeshState.new identity computedAabb).aabb = computedAabb ∧
      (ts.foldl (MeshState.set_transformation transformAabb)
          (MeshState.new identity computedAabb)).aabb_local = computedAabb ∧
      ∀ t, ts.getLast? = some t →
        (ts.foldl (MeshState.set_transformation transformAabb)
            (MeshState.new identity computedAabb)).transformation = t ∧
        (ts.foldl (MeshState.set_transformation transformAabb)
            (MeshState.new identity computedAabb)).aabb = transformAabb computedAabb t := by
  have h := foldl_set_transformation transformAabb ts (MeshState.new identity computedAabb)
  exact ⟨rfl, rfl, h.1, h.2⟩

theorem mesh_aabb_transform_invariant_witness :
    (MeshState.new (0 : Int) (5 : Int)).transformation = 0 ∧
      (MeshState.new (0 : Int) (5 : Int)).aabb = 5 ∧
      (([3, 7] : List Int).foldl
          (MeshState.set_transformation (fun (a : Int) (m : Int) => a + m))
          (MeshState.new 0 5)).aabb_local = 5 ∧
      (([3, 7] : List Int).foldl
          (MeshState.set_transformation (fun (a : Int) (m : Int) => a + m))
          (MeshState.new 0 5)).aabb = 12 := by
  have h := mesh_aabb_transform_invariant (fun (a : Int) (m : Int) => a + m) 0 5 [3, 7]
  have h2 := h.2.2.2 7 (by decide)
  exact ⟨h.1, h.2.1, h.2.2.1, by rw [h2.2]; decide⟩

/-! ## Imposters (`src/object/imposters.rs`)

The texture, render-target and camera types are not part of the excerpt; the
imposter state is reduced to the dimensions of its colour texture array, and
the device work of `update_texture` is traced. The floating-point geometry
(`sqrt` sizing of the texture, `sin`/`cos` of the camera position) is
abstracted: the computed texture dimensions are taken as inputs, and each
pass's view angle is recorded exactly, as a rational multiple of π. The
per-pass render callback (`set_view` + `render_target.write` + the user
closure) is an oracle giving each pass's outcome. -/

def NO_VIEW_ANGLES : Nat := 8

structure ImpostersState where
  textureWidth : Nat
  textureHeight : Nat
  textureLayers : Nat
deriving DecidableEq, Repr

inductive ImposterCall where
  | createColorTexture (width height layers : Nat)
  | createDepthTexture (width height layers : Nat)
  | renderPass (layer : Nat) (angleOverPi : ℚ)
deriving DecidableEq, Repr

def ImposterCall.isRenderPass : ImposterCall → Bool
  | .renderPass _ _ => true
  | _ => false

/-- The view angle of pass `i` divided by π: the code computes
`i as f32 * 2.0 * PI / NO_VIEW_ANGLES as f32`, i.e. `(i·2/8)·π`, with f32
rounding abstracted to exact rational arithmetic. -/
def viewAngleOverPi (i : Nat) : ℚ := (i : ℚ) * 2 / (NO_VIEW_ANGLES : ℚ)

/-- The `for i in 0..NO_VIEW_ANGLES` loop of `update_texture`: each iteration
points the camera at angle `viewAngleOverPi i` and renders into layer `i`;
a failing pass propagates its error out of the loop. -/
def runPasses (renderResult : Nat → Except Error Unit) :
    List Nat → Except Error Unit × List ImposterCall
  | [] => (.ok (), [])
  | i :: rest =>
    match renderResult i with
    | .error e => (.error e, [ImposterCall.renderPass i (viewAngleOverPi i)])
    | .ok _ =>
      let r := runPasses renderResult rest
      (r.1, ImposterCall.renderPass i (viewAngleOverPi i) :: r.2)

/-- `Imposters::update_texture`: recreate the colour texture array and the
depth texture array with `NO_VIEW_ANGLES` layers at the computed dimensions
(replacing the old texture unconditionally), then run one render pass per view
angle. The old state `imp` is fully replaced. -/
def update_texture (imp : ImpostersState) (renderResult : Nat → Except Error Unit)
    (textureWidth textureHeight : Nat) :
    Except Error Unit × ImpostersState × List ImposterCall :=
  let creations :=
    [ImposterCall.createColorTexture textureWidth textureHeight NO_VIEW_ANGLES,
      ImposterCall.createDepthTexture textureWidth textureHeight NO_VIEW_ANGLES]
  let newState : ImpostersState :=
    { textureWidth := textureWidth, textureHeight := textureHeight
      textureLayers := NO_VIEW_ANGLES }
  let r := runPasses renderResult (List.range NO_VIEW_ANGLES)
  (r.1, newState, creations ++ r.2)

theorem runPasses_ok (renderResult : Nat → Except Error Unit) :
    ∀ l : List Nat, (runPasses renderResult l).1 = .ok () →
      (runPasses renderResult l).2
        = l.map (fun i => ImposterCall.renderPass i (viewAngleOverPi i)) := by
  intro l
  induction l with
  | nil => intro _; rfl
  | cons i rest ih =>
    intro h
    cases hR : renderResult i with
    | error e => simp [runPasses, hR] at h
    | ok u =>
      simp only [runPasses, hR] at h ⊢
      rw [List.map_cons, ih h]

theorem filter_isRenderPass_map (l : List Nat) :
    (l.map (fun i => ImposterCall.renderPass i (viewAngleOverPi i))).filter
        ImposterCall.isRenderPass
      = l.map (fun i => ImposterCall.renderPass i (viewAngleOverPi i)) := by
  induction l with
  | nil => rfl
  | cons i rest ih => simp [ImposterCall.isRenderPass, ih]

/-- C8: a successful `update_texture` replaces the imposter texture with a
texture array of exactly 8 layers, and its device trace contains exactly 8
render passes, one per view angle, pass `i` at angle `(i·2/8)·π` — i.e.
`i · 2π/8`, evenly spaced around the Y axis. -/
theorem imposters_update_texture_eight_views (imp : ImpostersState)
    (renderResult : Nat → Except Error Unit) (w h : Nat)
    (hok : (update_texture imp renderResult w h).1 = .ok ()) :
    (update_texture imp renderResult w h).2.1.textureLayers = 8 ∧
      ((update_texture imp renderResult w h).2.2.filter ImposterCall.isRenderPass)
        = (List.range 8).map (fun i => ImposterCall.renderPass i ((i : ℚ) * 2 / 8)) := by
  have hok' : (runPasses renderResult (List.range NO_VIEW_ANGLES)).1 = .ok () := by
    simpa [update_texture] using hok
  constructor
  · rfl
  · simp only [update_texture, List.filter_append]
    rw [runPasses_ok renderResult (List.range NO_VIEW_ANGLES) hok']
    rw [filter_isRenderPass_map]
    simp [ImposterCall.isRenderPass, viewAngleOverPi, NO_VIEW_ANGLES, List.filter]

theorem imposters_update_texture_eight_views_witness :
    (update_texture ⟨1, 1, 8⟩ (fun _ => .ok ()) 4 4).2.1.textureLayers = 8 ∧
      ((update_texture ⟨1, 1, 8⟩ (fun _ => .ok ()) 4 4).2.2.filter
          ImposterCall.isRenderPass)
        = (List.range 8).map (fun i => ImposterCall.renderPass i ((i : ℚ) * 2 / 8)) :=
  imposters_update_texture_eight_views ⟨1, 1, 8⟩ (fun _ => .ok ()) 4 4 rfl

end ThreeD
